import Mathlib

/-!
Verification of the genesis-block construction core of `rust-tron`
(`node-cli/src/genesis.rs`): canonical record encoding, transaction
hashing, Merkle root computation and block-id derivation.

Bytes are modelled as `List Nat` with each element `< 256`; 32-bit and
64-bit machine arithmetic is modelled by explicit `% 2^32` / `% 2^64`.
-/

/-! ## SHA-256 (the `sha2` crate's `Sha256`, modelled bit-exactly) -/

/-- Truncate to a 32-bit word. -/
def w32 (n : Nat) : Nat := n % 4294967296

/-- Right rotation of a 32-bit word by `k` bits, written arithmetically:
the low `k` bits move to the top, the rest shift down. -/
def rotr32 (x k : Nat) : Nat := x / 2 ^ k + x % 2 ^ k * 2 ^ (32 - k)

/-- Exclusive or of three words. -/
def xor3 (a b c : Nat) : Nat := a ^^^ b ^^^ c

def bSig0 (x : Nat) : Nat := xor3 (rotr32 x 2) (rotr32 x 13) (rotr32 x 22)

def bSig1 (x : Nat) : Nat := xor3 (rotr32 x 6) (rotr32 x 11) (rotr32 x 25)

def sSig0 (x : Nat) : Nat := xor3 (rotr32 x 7) (rotr32 x 18) (x / 8)

def sSig1 (x : Nat) : Nat := xor3 (rotr32 x 17) (rotr32 x 19) (x / 1024)

def chF (x y z : Nat) : Nat := (x &&& y) ^^^ ((x ^^^ 4294967295) &&& z)

def majF (x y z : Nat) : Nat := xor3 (x &&& y) (x &&& z) (y &&& z)

/-- The 64 SHA-256 round constants. -/
def sha256K : List Nat :=
  [1116352408, 1899447441, 3049323471, 3921009573, 961987163, 1508970993,
   2453635748, 2870763221, 3624381080, 310598401, 607225278, 1426881987,
   1925078388, 2162078206, 2614888103, 3248222580, 3835390401, 4022224774,
   264347078, 604807628, 770255983, 1249150122, 1555081692, 1996064986,
   2554220882, 2821834349, 2952996808, 3210313671, 3336571891, 3584528711,
   113926993, 338241895, 666307205, 773529912, 1294757372, 1396182291,
   1695183700, 1986661051, 2177026350, 2456956037, 2730485921, 2820302411,
   3259730800, 3345764771, 3516065817, 3600352804, 4094571909, 275423344,
   430227734, 506948616, 659060556, 883997877, 958139571, 1322822218,
   1537002063, 1747873779, 1955562222, 2024104815, 2227730452, 2361852424,
   2428436474, 2756734187, 3204031479, 3329325298]

/-- Working state of the compression function: eight 32-bit words. -/
structure S8 where
  a : Nat
  b : Nat
  c : Nat
  d : Nat
  e : Nat
  f : Nat
  g : Nat
  h : Nat
  deriving Repr, DecidableEq

/-- One SHA-256 round; `kw` is the round constant already added to the schedule word. -/
def sha256Round (s : S8) (kw : Nat) : S8 :=
  let t1 := w32 (s.h + bSig1 s.e + chF s.e s.f s.g + kw)
  let t2 := w32 (bSig0 s.a + majF s.a s.b s.c)
  ⟨w32 (t1 + t2), s.a, s.b, s.c, w32 (s.d + t1), s.e, s.f, s.g⟩

/-- Group big-endian bytes into 32-bit words, four bytes per word. -/
def bytesToWords : List Nat → List Nat
  | b0 :: b1 :: b2 :: b3 :: rest =>
      (b0 * 16777216 + b1 * 65536 + b2 * 256 + b3) :: bytesToWords rest
  | _ => []

/-- Extend the 16 block words to 64 schedule words; `rws` holds the words
produced so far, newest first. -/
def schedExt : Nat → List Nat → List Nat
  | 0, rws => rws
  | n + 1, rws =>
      let wt := w32 (sSig1 (rws.getD 1 0) + rws.getD 6 0 + sSig0 (rws.getD 14 0) + rws.getD 15 0)
      schedExt n (wt :: rws)

def schedule (ws16 : List Nat) : List Nat := (schedExt 48 ws16.reverse).reverse

/-- Compress one 64-byte block into the state. -/
def sha256Compress (s : S8) (block : List Nat) : S8 :=
  let ws := schedule (bytesToWords block)
  let kws := List.zipWith (fun k w => w32 (k + w)) sha256K ws
  let t := kws.foldl sha256Round s
  ⟨w32 (s.a + t.a), w32 (s.b + t.b), w32 (s.c + t.c), w32 (s.d + t.d),
   w32 (s.e + t.e), w32 (s.f + t.f), w32 (s.g + t.g), w32 (s.h + t.h)⟩

/-- Big-endian bytes of a 64-bit quantity. -/
def beBytes8 (u : Nat) : List Nat :=
  [u / 72057594037927936 % 256, u / 281474976710656 % 256, u / 1099511627776 % 256,
   u / 4294967296 % 256, u / 16777216 % 256, u / 65536 % 256, u / 256 % 256, u % 256]

/-- SHA-256 padding: `0x80`, zeros to 56 mod 64, then the 64-bit bit length. -/
def padMsg (msg : List Nat) : List Nat :=
  let l := msg.length
  let zeros := (120 - (l + 1) % 64) % 64
  msg ++ 128 :: List.replicate zeros 0 ++ beBytes8 (8 * l)

/-- Split a padded message into 64-byte blocks (fuel bounds the recursion). -/
def toBlocksF : Nat → List Nat → List (List Nat)
  | 0, _ => []
  | _, [] => []
  | n + 1, l => l.take 64 :: toBlocksF n (l.drop 64)

def toBlocks (l : List Nat) : List (List Nat) := toBlocksF l.length l

def sha256Init : S8 :=
  ⟨1779033703, 3144134277, 1013904242, 2773480762,
   1359893119, 2600822924, 528734635, 1541459225⟩

def wordBE (w : Nat) : List Nat := [w / 16777216 % 256, w / 65536 % 256, w / 256 % 256, w % 256]

/-- SHA-256 of a byte sequence, returned as its 32 digest bytes. -/
def sha256 (msg : List Nat) : List Nat :=
  let s := (toBlocks (padMsg msg)).foldl sha256Compress sha256Init
  wordBE s.a ++ wordBE s.b ++ wordBE s.c ++ wordBE s.d ++
  wordBE s.e ++ wordBE s.f ++ wordBE s.g ++ wordBE s.h

/-! ## Hexadecimal decoding (the `hex` crate's `hex::decode`) -/

def hexDigitVal (c : Char) : Option Nat :=
  let n := c.toNat
  if 48 ≤ n ∧ n ≤ 57 then some (n - 48)
  else if 97 ≤ n ∧ n ≤ 102 then some (n - 87)
  else if 65 ≤ n ∧ n ≤ 70 then some (n - 55)
  else none

/-- Decode hex digit pairs into bytes; fails on an odd-length input or a
non-hex character, like `hex::decode`. -/
def hexPairs : List Char → Option (List Nat)
  | [] => some []
  | [_] => none
  | c1 :: c2 :: rest =>
      match hexDigitVal c1, hexDigitVal c2, hexPairs rest with
      | some hi, some lo, some bs => some ((hi * 16 + lo) :: bs)
      | _, _, _ => none

def hexDecode (s : String) : Option (List Nat) := hexPairs s.data

/-! ## UTF-8 bytes of a string (Rust's `str::as_bytes`) -/

def utf8Char (c : Char) : List Nat :=
  let n := c.toNat
  if n < 128 then [n]
  else if n < 2048 then [192 + n / 64, 128 + n % 64]
  else if n < 65536 then [224 + n / 4096, 128 + n / 64 % 64, 128 + n % 64]
  else [240 + n / 262144, 128 + n / 4096 % 64, 128 + n / 64 % 64, 128 + n % 64]

def strBytes (s : String) : List Nat := (s.data.map utf8Char).flatten

/-! ## Checksummed base-58 address decoding -/

def b58Alphabet : List Char :=
  "123456789ABCDEFGHJKLMNPQRSTUVWXYZabcdefghijkmnopqrstuvwxyz".data

def b58DigitVal (c : Char) : Option Nat :=
  let i := b58Alphabet.indexOf c
  if i < 58 then some i else none

/-- Interpret a base-58 digit string as a number, left to right. -/
def b58Num (cs : List Char) : Option Nat :=
  cs.foldl
    (fun acc c =>
      match acc, b58DigitVal c with
      | some a, some d => some (a * 58 + d)
      | _, _ => none)
    (some 0)

/-- Minimal big-endian byte representation of `n` (fuel bounds recursion;
`fuel` many bytes always suffice when `n < 256 ^ fuel`). -/
def natBEBytesF : Nat → Nat → List Nat
  | 0, _ => []
  | _ + 1, 0 => []
  | fuel + 1, n => natBEBytesF fuel (n / 256) ++ [n % 256]

def countLeadOnes : List Char → Nat
  | [] => 0
  | c :: cs => if c = '1' then countLeadOnes cs + 1 else 0

/-- Base-58 decoding: each leading `1` contributes a zero byte, the rest is
the big-endian representation of the digit string's value. -/
def b58decodeList (cs : List Char) : Option (List Nat) :=
  (b58Num cs).map fun n => List.replicate (countLeadOnes cs) 0 ++ natBEBytesF cs.length n

/-- Modelled from the spec: the `keys` crate's checksummed base-58 address
decoding (`keys::b58decode_check`, also used by `Address` parsing) is not
among the provided sources. Per the spec (§6), address decoding is "a
checksummed base-58 textual encoding of a fixed-length raw address; decoding
fails on checksum mismatch or wrong decoded length". The checksum is the
first 4 bytes of the double SHA-256 of the payload; the fixed raw-address
length is 21 bytes, so a well-formed encoding decodes to 25 bytes. -/
def b58decodeCheck (s : String) : Option (List Nat) :=
  match b58decodeList s.data with
  | none => none
  | some bs =>
      if bs.length = 25 then
        let payload := bs.take 21
        let checksum := bs.drop 21
        if (sha256 (sha256 payload)).take 4 = checksum then some payload else none
      else none

/-! ## Canonical record encoder

Modelled from the spec: the schema definitions (the `proto2` crate) and the
`prost` wire encoder behind `Message::encode` are not among the provided
sources. Per the spec (§4.1), the canonical encoder serializes every record's
fields "in a fixed, schema-defined order regardless of construction order";
"a field holding its type's zero/default value (empty string, zero integer,
empty sequence, absent optional) is omitted entirely from the output"; and a
present nested message or a repeated element is encoded as a tagged,
length-delimited payload. The model below follows the protocol-buffer wire
format: a field key `tag * 8 + wire_type`, base-128 varints for integers and
lengths, and 64-bit two's complement for signed integers. -/

/-- Base-128 little-endian varint of `n` (fuel bounds recursion; ten steps
suffice for any 64-bit quantity). -/
def varintF : Nat → Nat → List Nat
  | 0, _ => []
  | fuel + 1, n => if n < 128 then [n] else (n % 128 + 128) :: varintF fuel (n / 128)

def varint (n : Nat) : List Nat := varintF 20 n

/-- Two's-complement 64-bit value of a signed integer. -/
def toU64 (v : Int) : Nat := (v % (18446744073709551616 : Int)).toNat

/-- Length-delimited field, always present (used for present optional
messages and for repeated elements). -/
def lenField (tag : Nat) (payload : List Nat) : List Nat :=
  (tag * 8 + 2) :: varint payload.length ++ payload

/-- Length-delimited field with default omission: an empty byte string is
omitted from the encoding. -/
def bytesField (tag : Nat) (payload : List Nat) : List Nat :=
  if payload = [] then [] else lenField tag payload

/-- Varint integer field with default omission: a zero value is omitted. -/
def intField (tag : Nat) (v : Int) : List Nat :=
  if v = 0 then [] else (tag * 8) :: varint (toU64 v)

/-! ## Data model (mirrors `proto2::chain` / `proto2::contract`) -/

/-- Model of TransferContract: owner_address, to_address, amount. -/
structure TransferContract where
  owner_address : List Nat
  to_address : List Nat
  amount : Int
  deriving Repr, DecidableEq

/-- Model of prost_types Any (type_url, value); the type-tagged envelope. -/
structure AnyMsg where
  type_url : List Nat
  value : List Nat
  deriving Repr, DecidableEq

/-- Model of a transaction Contract (type, parameter). -/
structure Contract where
  ctype : Int
  parameter : Option AnyMsg
  deriving Repr, DecidableEq

/-- Model of a raw transaction: the ordered contract list plus ancillary
fields left at default in the genesis case. -/
structure TransactionRaw where
  contract : List Contract
  expiration : Int
  fee_limit : Int
  deriving Repr, DecidableEq

/-- Model of a transaction Result (the ret entries; execution results). -/
structure TxResult where
  fee : Int
  deriving Repr, DecidableEq

/-- Model of a Transaction record: raw_data, signature, ret. -/
structure Transaction where
  raw_data : Option TransactionRaw
  signature : List (List Nat)
  ret : List TxResult
  deriving Repr, DecidableEq

/-- Model of the raw block header. -/
structure BlockHeaderRaw where
  timestamp : Int
  merkle_root_hash : List Nat
  parent_hash : List Nat
  number : Int
  witness_id : Int
  witness_address : List Nat
  version : Int
  deriving Repr, DecidableEq

/-- Model of a BlockHeader: raw_data, witness_signature. -/
structure BlockHeader where
  raw_data : Option BlockHeaderRaw
  witness_signature : List Nat
  deriving Repr, DecidableEq

/-- Model of a Block: transactions, block_header. -/
structure Block where
  transactions : List Transaction
  block_header : Option BlockHeader
  deriving Repr, DecidableEq

/-- Value of the contract-type enum for a transfer contract, as an i32. -/
def transferContractType : Int := 1

def encTransferContract (tc : TransferContract) : List Nat :=
  bytesField 1 tc.owner_address ++ bytesField 2 tc.to_address ++ intField 3 tc.amount

def encAny (a : AnyMsg) : List Nat :=
  bytesField 1 a.type_url ++ bytesField 2 a.value

def encContract (c : Contract) : List Nat :=
  intField 1 c.ctype ++
  (match c.parameter with
   | none => []
   | some a => lenField 2 (encAny a))

def encTransactionRaw (r : TransactionRaw) : List Nat :=
  intField 8 r.expiration ++
  (r.contract.map fun c => lenField 11 (encContract c)).flatten ++
  intField 18 r.fee_limit

def encTxResult (r : TxResult) : List Nat := intField 1 r.fee

/-- Canonical encoding of a whole `Transaction` record: raw data, then every
signature entry, then every `ret` entry. -/
def encTransaction (t : Transaction) : List Nat :=
  (match t.raw_data with
   | none => []
   | some r => lenField 1 (encTransactionRaw r)) ++
  (t.signature.map fun s => lenField 2 s).flatten ++
  (t.ret.map fun r => lenField 5 (encTxResult r)).flatten

def encBlockHeaderRaw (h : BlockHeaderRaw) : List Nat :=
  intField 1 h.timestamp ++ bytesField 2 h.merkle_root_hash ++
  bytesField 3 h.parent_hash ++ intField 7 h.number ++ intField 8 h.witness_id ++
  bytesField 9 h.witness_address ++ intField 10 h.version

/-! ## Merkle accumulator -/

/-- Combine one level of nodes pairwise, left to right; a trailing odd node
is hashed with itself (the duplication policy). -/
def hashPairs : List (List Nat) → List (List Nat)
  | [] => []
  | [x] => [sha256 (x ++ x)]
  | x :: y :: rest => sha256 (x ++ y) :: hashPairs rest

/-- Collapse levels until one node remains (fuel bounds the recursion; the
level shrinks by half each step, so `fuel = length` always suffices). -/
def merkleCollapse : Nat → List (List Nat) → List Nat
  | _, [] => List.replicate 32 0
  | _, [x] => x
  | 0, _ :: _ :: _ => []
  | fuel + 1, l => merkleCollapse fuel (hashPairs l)

/-- Modelled from the spec: `MerkleTree::from_vec` / `root_hash` (the
`merkle_tree` module) is not among the provided sources. Per the spec
(§4.2), the tree is built bottom-up, pairing adjacent nodes left to right
and hashing the concatenation of each pair; the last odd node of a level is
hashed with itself ("the duplication-of-last-node policy"); a single leaf's
root is the hash of the leaf with itself, never the bare leaf; the empty
sequence yields the all-zero sentinel root. -/
def merkleRoot (leaves : List (List Nat)) : List Nat :=
  match leaves with
  | [] => List.replicate 32 0
  | l => merkleCollapse l.length (hashPairs l)

/-! ## Genesis construction (`node-cli/src/genesis.rs`) -/

/-- Model of a Witness entry (address, url, votes) of the configuration. -/
structure Witness where
  address : String
  url : String
  votes : Int
  deriving Repr, DecidableEq

/-- Model of an Alloc entry (address, name, balance) of the configuration. -/
structure Alloc where
  address : String
  name : String
  balance : Int
  deriving Repr, DecidableEq

/-- Model of the GenesisConfig record. -/
structure GenesisConfig where
  timestamp : Int
  parent_hash : String
  witnesses : List Witness
  allocs : List Alloc
  mantra : String
  creator : String
  deriving Repr, DecidableEq

/-- Model of parse_hex: strips an optional 0x/0X marker and hex-decodes the
rest. The Rust function calls `.unwrap()` on the decode result, so `none`
models a panic, not a returned error. No length check is performed. -/
def parseHex (encoded : String) : Option (List Nat) :=
  match encoded.data with
  | '0' :: 'x' :: rest => hexPairs rest
  | '0' :: 'X' :: rest => hexPairs rest
  | cs => hexPairs cs

/-- Model of get_transaction_hash: the SHA-256 digest of the canonical encoding of
the whole `Transaction` record. -/
def getTransactionHash (t : Transaction) : List Nat := sha256 (encTransaction t)

/-- Model of to_transaction on an Alloc: decode the recipient address, build the
transfer contract, wrap it in the `Any` envelope, a `Contract`, a raw
transaction and a `Transaction`; `none` models the address-decoding error. -/
def allocToTransaction (sender : List Nat) (alloc : Alloc) : Option Transaction :=
  match b58decodeCheck alloc.address with
  | none => none
  | some toAddr =>
      let tc : TransferContract := ⟨sender, toAddr, alloc.balance⟩
      let any : AnyMsg := ⟨strBytes "type.googleapis.com/protocol.TransferContract", encTransferContract tc⟩
      let contract : Contract := ⟨transferContractType, some any⟩
      let raw : TransactionRaw := ⟨[contract], 0, 0⟩
      some ⟨some raw, [], []⟩

/-- Option-valued map that preserves order and fails on the first failing
element, like `collect::<Result<Vec<_>, _>>` over an iterator of results. -/
def mapOpt (f : α → Option β) : List α → Option (List β)
  | [] => some []
  | a :: as =>
      match f a with
      | none => none
      | some b => (mapOpt f as).map (b :: ·)

/-- Outcome of `GenesisConfig::to_block`. `invalidAddressError` models the
`?`-propagated address-decoding error returned to the caller; `hexPanic`
models the `.unwrap()` panic inside `parse_hex` — a crash, not a returned
error value (the code has no `MalformedHex` error value at all). -/
inductive GenesisResult where
  | ok (b : Block)
  | invalidAddressError
  | hexPanic
  deriving Repr, DecidableEq

/-- Model of to_block on a GenesisConfig. -/
def toBlock (cfg : GenesisConfig) : GenesisResult :=
  match b58decodeCheck cfg.creator with
  | none => .invalidAddressError
  | some sender =>
      match mapOpt (allocToTransaction sender) cfg.allocs with
      | none => .invalidAddressError
      | some txs =>
          let hashes := txs.map getTransactionHash
          let root := merkleRoot hashes
          match parseHex cfg.parent_hash with
          | none => .hexPanic
          | some parentBytes =>
              .ok ⟨txs, some ⟨some ⟨cfg.timestamp, root, parentBytes, 0, 0, strBytes cfg.mantra, 0⟩, []⟩⟩

/-- Big-endian 8-byte rendering of an `i64`, as `BE::write_i64`. -/
def beBytesI64 (v : Int) : List Nat := beBytes8 (toU64 v)

/-- Model of calculate_block_id: digest the canonical encoding of the header raw
data and overwrite the first 8 bytes with the big-endian block number.
`none` models the `.unwrap()` panics on an absent header or raw data. -/
def calculateBlockId (block : Block) : Option (List Nat) :=
  match block.block_header with
  | none => none
  | some header =>
      match header.raw_data with
      | none => none
      | some raw =>
          let digest := sha256 (encBlockHeaderRaw raw)
          some (beBytesI64 raw.number ++ digest.drop 8)

/-- Read 8 bytes as a big-endian signed 64-bit integer. -/
def beReadI64 (bs : List Nat) : Int :=
  let u : Nat := bs.foldl (fun acc b => acc * 256 + b) 0
  if u < 9223372036854775808 then (u : Int) else (u : Int) - 18446744073709551616

/-- Extract the block of a successful outcome (defaulting to an empty block). -/
def GenesisResult.getOk : GenesisResult → Block
  | .ok b => b
  | _ => ⟨[], none⟩

/-! ## Concrete inputs used by witnesses and counterexamples.
The two address strings are well-formed checksummed base-58 encodings of the
21-byte payloads `0x41` followed by twenty `0x00` and `0x41` followed by
twenty `0x01` respectively. -/

def creatorOk : String := "T9yD14Nj9j7xAB4dbGeiX9h8unkKHxuWwb"

def allocOk : String := "TA4Wt1DUCqz6YegbnsmqsWC5uUfbdBqPxm"

/-- Well-formed genesis configuration with one allocation. -/
def cfgW : GenesisConfig :=
  ⟨1550000000000, "0000000000000000000000000000000000000000000000000000000000000000", [],
   [⟨allocOk, "alloc-one", 5000⟩], "genesis-mantra", creatorOk⟩

/-- The block `cfgW` assembles to. -/
def blockW : Block := (toBlock cfgW).getOk

/-- Transaction with raw data only. -/
def txNoSig : Transaction := ⟨some ⟨[], 0, 0⟩, [], []⟩

/-- Same raw data as `txNoSig`, plus one signature entry. -/
def txWithSig : Transaction := ⟨some ⟨[], 0, 0⟩, [[1]], []⟩

/-- Same raw data as `txNoSig`, plus one execution-result entry. -/
def txWithRet : Transaction := ⟨some ⟨[], 0, 0⟩, [], [⟨7⟩]⟩

/-- Configuration whose parent-hash hex is valid but only 2 bytes long. -/
def cfgHexShort : GenesisConfig := ⟨1, "abcd", [], [], "m", creatorOk⟩

/-- Configuration whose parent-hash string is not valid hexadecimal. -/
def cfgHexBad : GenesisConfig := ⟨1, "zz", [], [], "m", creatorOk⟩

/-- Raw header with block number 77, for exercising `calculateBlockId`. -/
def rawForId : BlockHeaderRaw := ⟨5, [1], [2], 77, 0, [3], 0⟩

def blockForId : Block := ⟨[], some ⟨some rawForId, []⟩⟩

/-- Configuration whose creator string is not decodable base-58. -/
def cfgBadCreator : GenesisConfig := ⟨0, "00", [], [], "m", "0"⟩

/-- Configurations differing only in their `witnesses` sequence. -/
def cfgWitA : GenesisConfig := ⟨3, "ff", [⟨"w", "u", 1⟩], [], "m", "0"⟩

def cfgWitB : GenesisConfig := ⟨3, "ff", [], [], "m", "0"⟩

/-! ## Helper lemmas -/

set_option maxRecDepth 100000

theorem mapOpt_eq_none {α β : Type} (f : α → Option β) :
    ∀ l : List α, (∃ a ∈ l, f a = none) → mapOpt f l = none := by
  intro l
  induction l with
  | nil => rintro ⟨a, ha, -⟩; exact absurd ha (List.not_mem_nil a)
  | cons x xs ih =>
      rintro ⟨a, ha, hfa⟩
      rcases List.mem_cons.mp ha with rfl | hmem
      · simp [mapOpt, hfa]
      · cases hfx : f x with
        | none => simp [mapOpt, hfx]
        | some b => simp [mapOpt, hfx, ih ⟨a, hmem, hfa⟩]

theorem sha256_length (msg : List Nat) : (sha256 msg).length = 32 := by
  simp [sha256, wordBE]

theorem beFold_beBytes8 (n : Nat) (hn : n < 18446744073709551616) :
    List.foldl (fun acc b => acc * 256 + b) 0 (beBytes8 n) = n := by
  simp only [beBytes8, List.foldl]
  omega

theorem beReadI64_beBytesI64 (v : Int) (h1 : -(9223372036854775808 : Int) ≤ v)
    (h2 : v < 9223372036854775808) : beReadI64 (beBytesI64 v) = v := by
  have hnn : (0 : Int) ≤ v % 18446744073709551616 := Int.emod_nonneg v (by norm_num)
  have hlt : v % 18446744073709551616 < 18446744073709551616 :=
    Int.emod_lt_of_pos v (by norm_num)
  simp only [beReadI64, beBytesI64, toU64]
  rw [beFold_beBytes8 _ (by omega)]
  split_ifs with hc
  · omega
  · omega

/-- Inversion of a successful `toBlock` run: extract the decoded sender, the
allocation transactions and the parsed parent bytes, and the exact shape of
the produced block. -/
theorem toBlock_ok_inv (cfg : GenesisConfig) (b : Block) (h : toBlock cfg = .ok b) :
    ∃ sender txs pb, b58decodeCheck cfg.creator = some sender ∧
      mapOpt (allocToTransaction sender) cfg.allocs = some txs ∧
      parseHex cfg.parent_hash = some pb ∧
      b = ⟨txs, some ⟨some ⟨cfg.timestamp, merkleRoot (txs.map getTransactionHash), pb, 0, 0,
            strBytes cfg.mantra, 0⟩, []⟩⟩ := by
  unfold toBlock at h
  split at h
  · exact absurd h (by simp)
  · split at h
    · exact absurd h (by simp)
    · split at h
      · exact absurd h (by simp)
      · rename_i x1 sender hc x2 txs hm x3 pb hp
        cases h
        exact ⟨sender, txs, pb, hc, hm, hp, rfl⟩

theorem toBlock_cfgW : toBlock cfgW = .ok blockW := rfl

/-! ## Claims -/

/-- C1, counterexample: `get_transaction_hash` digests the canonical encoding
of the whole transaction record, not of the raw-data field only. Three
transactions with identical raw-data but different signature / ret fields
have pairwise different identifiers, and the identifier of the plain one is
not the digest of the raw-data encoding alone. -/
theorem tx_hash_not_raw_data_only :
    txNoSig.raw_data = txWithSig.raw_data ∧ txNoSig.raw_data = txWithRet.raw_data ∧
    getTransactionHash txNoSig ≠ getTransactionHash txWithSig ∧
    getTransactionHash txNoSig ≠ getTransactionHash txWithRet ∧
    getTransactionHash txNoSig ≠ sha256 (encTransactionRaw ⟨[], 0, 0⟩) :=
  ⟨rfl, rfl, by decide, by decide, by decide⟩

/-- C1, amended: the transaction identifier returned by
`get_transaction_hash` is the 32-byte SHA-256 digest of the canonical
encoding of the whole transaction record — the length-delimited raw-data
field followed by every signature entry and every ret entry — so the
signature and ret fields do enter the digested bytes. -/
theorem tx_hash_digests_whole_record (r : TransactionRaw) (sigs : List (List Nat))
    (rets : List TxResult) :
    getTransactionHash ⟨some r, sigs, rets⟩ =
      sha256 (lenField 1 (encTransactionRaw r) ++
        (sigs.map fun s => lenField 2 s).flatten ++
        (rets.map fun x => lenField 5 (encTxResult x)).flatten) := rfl

/-- C2, counterexample: a parent-hash string that is valid hexadecimal but
decodes to 2 bytes (not 32) makes `to_block` succeed — no `MalformedHex`
error is returned — and a non-hex parent-hash string makes `parse_hex`
panic (modelled by `hexPanic`), which is a crash, not an error returned to
the caller. -/
theorem parse_hex_no_malformed_hex_error :
    hexDecode "abcd" = some [171, 205] ∧
    toBlock cfgHexShort =
      .ok ⟨[], some ⟨some ⟨1, List.replicate 32 0, [171, 205], 0, 0, [109], 0⟩, []⟩⟩ ∧
    toBlock cfgHexBad = .hexPanic :=
  ⟨rfl, rfl, rfl⟩

/-- C2, amended: during block assembly the configured parent-reference
string is parsed with no length check at all — any even-length valid hex
string of any size is accepted and its bytes are used as the parent hash —
and on invalid hex the `.unwrap()` inside `parse_hex` panics instead of
returning an error; `to_block` never returns a `MalformedHex` error. -/
theorem to_block_parse_hex_unchecked (cfg : GenesisConfig) (sender : List Nat)
    (txs : List Transaction)
    (hc : b58decodeCheck cfg.creator = some sender)
    (hm : mapOpt (allocToTransaction sender) cfg.allocs = some txs) :
    (parseHex cfg.parent_hash = none → toBlock cfg = .hexPanic) ∧
    ∀ pb, parseHex cfg.parent_hash = some pb →
      toBlock cfg = .ok ⟨txs, some ⟨some ⟨cfg.timestamp,
        merkleRoot (txs.map getTransactionHash), pb, 0, 0, strBytes cfg.mantra, 0⟩, []⟩⟩ := by
  constructor
  · intro hp
    unfold toBlock
    simp only [hc, hm, hp]
  · intro pb hp
    unfold toBlock
    simp only [hc, hm, hp]

/-- C2, witness for the amended theorem at a concrete configuration. -/
theorem to_block_parse_hex_unchecked_w : toBlock cfgHexBad = .hexPanic :=
  (to_block_parse_hex_unchecked cfgHexBad (65 :: List.replicate 20 0) [] (by decide) rfl).1
    (by decide)

/-- C3: the four Merkle edge cases. The empty leaf sequence yields the
all-zero sentinel; one leaf is hashed with itself, never promoted; two
leaves are hashed together; with three leaves the last odd node is hashed
with itself to form its parent. -/
theorem merkle_root_edge_cases (L0 L1 L2 : List Nat) :
    merkleRoot [] = List.replicate 32 0 ∧
    merkleRoot [L0] = sha256 (L0 ++ L0) ∧
    merkleRoot [L0, L1] = sha256 (L0 ++ L1) ∧
    merkleRoot [L0, L1, L2] = sha256 (sha256 (L0 ++ L1) ++ sha256 (L2 ++ L2)) :=
  ⟨rfl, rfl, rfl, rfl⟩

/-- C4: for any block whose header and raw header data are present (and
whose number is in the i64 range, as Rust's type guarantees), the block id
is 32 bytes; its first 8 bytes read as a big-endian signed 64-bit integer
give back exactly the number field, and its remaining 24 bytes are the
corresponding bytes of the SHA-256 digest of the header raw-data's
canonical encoding. -/
theorem calculate_block_id_structure (b : Block) (hdr : BlockHeader) (raw : BlockHeaderRaw)
    (hb : b.block_header = some hdr) (hr : hdr.raw_data = some raw)
    (hlo : -(9223372036854775808 : Int) ≤ raw.number)
    (hhi : raw.number < 9223372036854775808) :
    ∃ id, calculateBlockId b = some id ∧ id.length = 32 ∧
      beReadI64 (id.take 8) = raw.number ∧
      id.drop 8 = (sha256 (encBlockHeaderRaw raw)).drop 8 := by
  have h8 : (beBytesI64 raw.number).length = 8 := rfl
  refine ⟨beBytesI64 raw.number ++ (sha256 (encBlockHeaderRaw raw)).drop 8, ?_, ?_, ?_, ?_⟩
  · simp [calculateBlockId, hb, hr]
  · have h32 := sha256_length (encBlockHeaderRaw raw)
    simp [List.length_append, h8, List.length_drop, h32]
  · rw [List.take_left' h8]
    exact beReadI64_beBytesI64 _ hlo hhi
  · rw [List.drop_left' h8]

/-- C4, witness at a concrete block with number 77. -/
theorem calculate_block_id_structure_w :
    ∃ id, calculateBlockId blockForId = some id ∧ id.length = 32 ∧
      beReadI64 (id.take 8) = (77 : Int) ∧
      id.drop 8 = (sha256 (encBlockHeaderRaw rawForId)).drop 8 :=
  calculate_block_id_structure blockForId ⟨some rawForId, []⟩ rawForId rfl rfl
    (by decide) (by decide)

/-- C5: every block successfully returned by `to_block` has a header whose
merkle_root_hash equals the Merkle root of the transaction identifiers of
its transactions, in the exact order they appear in the block. -/
theorem to_block_merkle_root_invariant (cfg : GenesisConfig) (b : Block)
    (h : toBlock cfg = .ok b) :
    ∃ hdr raw, b.block_header = some hdr ∧ hdr.raw_data = some raw ∧
      raw.merkle_root_hash = merkleRoot (b.transactions.map getTransactionHash) := by
  obtain ⟨sender, txs, pb, -, -, -, rfl⟩ := toBlock_ok_inv cfg b h
  exact ⟨_, _, rfl, rfl, rfl⟩

/-- C5, witness at a configuration with one allocation. -/
theorem to_block_merkle_root_invariant_w :
    ∃ hdr raw, blockW.block_header = some hdr ∧ hdr.raw_data = some raw ∧
      raw.merkle_root_hash = merkleRoot (blockW.transactions.map getTransactionHash) :=
  to_block_merkle_root_invariant cfgW blockW toBlock_cfgW

/-- C6: if the creator address string or any allocation entry's address
string fails checksummed base-58 decoding, `to_block` returns the
address-decoding error and produces no block value at all. -/
theorem to_block_invalid_address_aborts (cfg : GenesisConfig)
    (h : b58decodeCheck cfg.creator = none ∨
      ∃ a ∈ cfg.allocs, b58decodeCheck a.address = none) :
    toBlock cfg = .invalidAddressError := by
  rcases h with hc | ⟨a, ha, hd⟩
  · unfold toBlock
    rw [hc]
  · unfold toBlock
    cases hc : b58decodeCheck cfg.creator with
    | none => rfl
    | some sender =>
        have hnone : mapOpt (allocToTransaction sender) cfg.allocs = none := by
          apply mapOpt_eq_none
          exact ⟨a, ha, by simp [allocToTransaction, hd]⟩
        simp only [hnone]

/-- C6, witness: a creator string containing a character outside the
base-58 alphabet aborts the build with the address error. -/
theorem to_block_invalid_address_aborts_w : toBlock cfgBadCreator = .invalidAddressError :=
  to_block_invalid_address_aborts cfgBadCreator (.inl (by decide))

/-- C8: the pipeline is deterministic — field-wise equal transactions have
identical identifiers and field-wise equal configurations produce equal
`to_block` outcomes. -/
theorem pipeline_deterministic :
    (∀ t1 t2 : Transaction, t1.raw_data = t2.raw_data → t1.signature = t2.signature →
        t1.ret = t2.ret → getTransactionHash t1 = getTransactionHash t2) ∧
    (∀ c1 c2 : GenesisConfig, c1.timestamp = c2.timestamp →
        c1.parent_hash = c2.parent_hash → c1.witnesses = c2.witnesses →
        c1.allocs = c2.allocs → c1.mantra = c2.mantra → c1.creator = c2.creator →
        toBlock c1 = toBlock c2) := by
  constructor
  · intro t1 t2 h1 h2 h3
    have : t1 = t2 := by cases t1; cases t2; simp_all
    rw [this]
  · intro c1 c2 h1 h2 h3 h4 h5 h6
    have : c1 = c2 := by cases c1; cases c2; simp_all
    rw [this]

/-- C8, witness at concrete equal inputs. -/
theorem pipeline_deterministic_w :
    getTransactionHash ⟨none, [], []⟩ = getTransactionHash ⟨none, [], []⟩ ∧
    toBlock cfgHexShort = toBlock cfgHexShort :=
  ⟨pipeline_deterministic.1 ⟨none, [], []⟩ ⟨none, [], []⟩ rfl rfl rfl,
   pipeline_deterministic.2 cfgHexShort cfgHexShort rfl rfl rfl rfl rfl rfl⟩

/-- C9: `to_block` never consumes the witnesses field — two configurations
that agree on every other field produce identical outcomes whatever their
witnesses sequences are. -/
theorem to_block_ignores_witnesses (c1 c2 : GenesisConfig)
    (ht : c1.timestamp = c2.timestamp) (hp : c1.parent_hash = c2.parent_hash)
    (ha : c1.allocs = c2.allocs) (hm : c1.mantra = c2.mantra)
    (hc : c1.creator = c2.creator) : toBlock c1 = toBlock c2 := by
  cases c1
  cases c2
  simp_all
  rfl

/-- C9, witness: two configurations differing only in witnesses. -/
theorem to_block_ignores_witnesses_w : toBlock cfgWitA = toBlock cfgWitB :=
  to_block_ignores_witnesses cfgWitA cfgWitB rfl rfl rfl rfl rfl

/-- C10: `calculate_block_id` is total on blocks whose header and raw
header data are present (the unwrap branches return a value there), and
every block returned by `to_block` satisfies that precondition. -/
theorem calculate_block_id_precondition :
    (∀ (b : Block) (hdr : BlockHeader) (raw : BlockHeaderRaw),
        b.block_header = some hdr → hdr.raw_data = some raw →
        ∃ id, calculateBlockId b = some id) ∧
    (∀ (cfg : GenesisConfig) (b : Block), toBlock cfg = .ok b →
        ∃ hdr raw, b.block_header = some hdr ∧ hdr.raw_data = some raw) := by
  constructor
  · intro b hdr raw hb hr
    exact ⟨beBytesI64 raw.number ++ (sha256 (encBlockHeaderRaw raw)).drop 8,
      by simp [calculateBlockId, hb, hr]⟩
  · intro cfg b h
    obtain ⟨sender, txs, pb, -, -, -, rfl⟩ := toBlock_ok_inv cfg b h
    exact ⟨_, _, rfl, rfl⟩

/-- C10, witness: totality at a concrete block, and the precondition for
the block assembled from a concrete configuration. -/
theorem calculate_block_id_precondition_w :
    (∃ id, calculateBlockId blockForId = some id) ∧
    (∃ hdr raw, blockW.block_header = some hdr ∧ hdr.raw_data = some raw) :=
  ⟨calculate_block_id_precondition.1 blockForId ⟨some rawForId, []⟩ rawForId rfl rfl,
   calculate_block_id_precondition.2 cfgW blockW toBlock_cfgW⟩

/-- C7: every successfully assembled genesis block has header raw-data with
number 0, the configured timestamp, the mantra's UTF-8 bytes verbatim as
witness_address, the parsed parent-hash bytes, and the computed Merkle
root. -/
theorem to_block_header_fields (cfg : GenesisConfig) (b : Block)
    (h : toBlock cfg = .ok b) :
    ∃ hdr raw, b.block_header = some hdr ∧ hdr.raw_data = some raw ∧
      raw.number = 0 ∧ raw.timestamp = cfg.timestamp ∧
      raw.witness_address = strBytes cfg.mantra ∧
      parseHex cfg.parent_hash = some raw.parent_hash ∧
      raw.merkle_root_hash = merkleRoot (b.transactions.map getTransactionHash) := by
  obtain ⟨sender, txs, pb, -, -, hp, rfl⟩ := toBlock_ok_inv cfg b h
  exact ⟨_, _, rfl, rfl, rfl, rfl, rfl, hp, rfl⟩

/-- C7, witness at a configuration with one allocation. -/
theorem to_block_header_fields_w :
    ∃ hdr raw, blockW.block_header = some hdr ∧ hdr.raw_data = some raw ∧
      raw.number = 0 ∧ raw.timestamp = cfgW.timestamp ∧
      raw.witness_address = strBytes cfgW.mantra ∧
      parseHex cfgW.parent_hash = some raw.parent_hash ∧
      raw.merkle_root_hash = merkleRoot (blockW.transactions.map getTransactionHash) :=
  to_block_header_fields cfgW blockW toBlock_cfgW
